import Mathlib

/-!
# Link_Validator — verification of the URL-detection and validation core

Shallow embedding of the repository `jdai-explore/Link_Validator`
(files `src/link_validator.py`, `src/utils.py`, `src/config.py`).

Conventions of the embedding:

* Python strings are Lean `String`s; Python string primitives (`strip`,
  `lower`, `split`, `count`, `in`, `startswith`, `endswith`) are modelled by
  the `py*`/`str*` helpers below, operating on the underlying `List Char`.
  `str.lower`/`isalpha`/`isalnum` are modelled at ASCII precision (the
  repository's heuristics only ever test ASCII markers).
* Cell values coming from pandas/openpyxl are modelled by `PyValue`:
  a string, `None`, or a NaN-like missing value.  (Numeric cells are outside
  the modelled domain; they never appear in the claims.)
* `urllib.parse.urlparse` is modelled by `urlsplitRaw` at the precision the
  validator consumes: scheme extraction (with the `scheme_chars` guard and
  lowercasing) and netloc extraction after `//` up to the first `/?#`, after
  removal of the unsafe bytes `\t\r\n`.  The bracketed-IPv6-host and NFKC
  netloc checks of CPython (which raise `ValueError` for exotic inputs and
  are mapped to `False` by the validator's `try/except`) are elided.
* Python `float` progress fractions are modelled as exact rationals `ℚ`.
-/

/-- Python whitespace characters recognised by `str.strip()` (ASCII range). -/
def isPyWs (c : Char) : Bool :=
  c = ' ' || c = '\t' || c = '\n' || c = '\r' || c = Char.ofNat 11 || c = Char.ofNat 12

/-- Strip leading and trailing characters satisfying `p` from a char list. -/
def stripWhile (p : Char → Bool) (l : List Char) : List Char :=
  ((l.dropWhile p).reverse.dropWhile p).reverse

/-- Python `str.strip()` (no argument): drop surrounding whitespace. -/
def pyStrip (s : String) : String :=
  ⟨stripWhile isPyWs s.data⟩

/-- Python `str.strip(chars)`: drop surrounding characters from `cs`. -/
def pyStripChars (cs : List Char) (s : String) : String :=
  ⟨stripWhile (fun c => cs.contains c) s.data⟩

/-- Python `str.lower()` (ASCII precision). -/
def pyLower (s : String) : String :=
  ⟨s.data.map Char.toLower⟩

/-- Does `pat` occur as a contiguous sublist of the second argument?
Models Python's `pat in s` for strings. -/
def listContains (pat : List Char) : List Char → Bool
  | [] => pat.isEmpty
  | c :: rest => pat.isPrefixOf (c :: rest) || listContains pat rest

/-- Python `pat in s` on strings. -/
def strContains (s pat : String) : Bool :=
  listContains pat.data s.data

/-- Python `s.startswith(p)`. -/
def strStarts (s p : String) : Bool :=
  p.data.isPrefixOf s.data

/-- Python `s.endswith(p)`. -/
def strEnds (s p : String) : Bool :=
  p.data.isSuffixOf s.data

/-- Split a char list at every character satisfying `p`, keeping empty
pieces — the behaviour of Python `str.split(sep)` for a one-character
separator (with `p` matching exactly that character). -/
def splitPredL (p : Char → Bool) : List Char → List (List Char)
  | [] => [[]]
  | c :: rest =>
    let r := splitPredL p rest
    if p c then [] :: r
    else
      match r with
      | [] => [[c]]
      | h :: t => (c :: h) :: t

/-- Python `s.split(sep)` for a single-character separator. -/
def pySplitChar (sep : Char) (s : String) : List String :=
  (splitPredL (fun c => c = sep) s.data).map fun l => ⟨l⟩

/-- Python `s.split()` (no separator): split on whitespace runs, discarding
empty pieces. -/
def pySplitWs (s : String) : List String :=
  ((splitPredL isPyWs s.data).filter fun l => !l.isEmpty).map fun l => ⟨l⟩

/-- A cell/line value as handed to the core by pandas/openpyxl/file readers:
a string, Python `None`, or a NaN-like missing value. -/
inductive PyValue where
  | vstr (s : String)
  | vnone
  | vnan
deriving DecidableEq

/-- `pandas.isna` on the modelled domain. -/
def pd_isna : PyValue → Bool
  | .vstr _ => false
  | .vnone => true
  | .vnan => true

/-- Python `str(value)` on the modelled domain. -/
def pyStr : PyValue → String
  | .vstr s => s
  | .vnone => "None"
  | .vnan => "nan"

/-- Python truthiness (`if cell_value:`) on the modelled domain: `None` is
falsy, the empty string is falsy, NaN floats are truthy. -/
def pyTruthy : PyValue → Bool
  | .vstr s => !s.data.isEmpty
  | .vnone => false
  | .vnan => true

/-- `utils.safe_str_conversion`: missing values become `""`, strings are
stripped. -/
def safe_str_conversion (v : PyValue) : String :=
  if pd_isna v then "" else pyStrip (pyStr v)

/-- ASCII letter test (`url[0].isascii() and url[0].isalpha()` in
`urllib.parse`). -/
def isAsciiLetter (c : Char) : Bool :=
  (65 ≤ c.toNat && c.toNat ≤ 90) || (97 ≤ c.toNat && c.toNat ≤ 122)

/-- Membership in `urllib.parse.scheme_chars`
(`ascii letters + digits + '+-.'`). -/
def isSchemeChar (c : Char) : Bool :=
  isAsciiLetter c || (48 ≤ c.toNat && c.toNat ≤ 57) || c = '+' || c = '-' || c = '.'

/-- `urllib.parse.urlsplit`, restricted to the `(scheme, netloc)` output the
validator consumes, with the scheme NOT yet lowercased: remove the unsafe
bytes `\t\r\n`; if a `:` occurs at position `i > 0` and everything before it
is a well-formed scheme (first char an ASCII letter, all chars in
`scheme_chars`), that part is the scheme; then, if the remainder starts with
`//`, the netloc is what follows up to the first `/`, `?` or `#`. -/
def urlsplitRaw (url : String) : String × String :=
  let l := url.data.filter fun c => !(c = '\t' || c = '\r' || c = '\n')
  let p : String × List Char :=
    match l.findIdx? (fun c => c = ':') with
    | some i =>
      if 0 < i ∧ isAsciiLetter (l.headD ' ') = true ∧ (l.take i).all isSchemeChar = true then
        (⟨l.take i⟩, l.drop (i + 1))
      else ("", l)
    | none => ("", l)
  let netloc : String :=
    if p.2.take 2 = ['/', '/'] then
      ⟨(p.2.drop 2).takeWhile fun c => !(c = '/' || c = '?' || c = '#')⟩
    else ""
  (p.1, netloc)

/-- The `.scheme` of `urllib.parse.urlparse`: the raw scheme, lowercased. -/
def urlparse_scheme (s : String) : String :=
  pyLower (urlsplitRaw s).1

/-- The `.netloc` of `urllib.parse.urlparse`. -/
def urlparse_netloc (s : String) : String :=
  (urlsplitRaw s).2

/-- `LinkValidator.is_valid_url` (src/link_validator.py lines 33-62):
reject missing/blank input, parse, require non-empty scheme and netloc,
require scheme `http`/`https`, and reject a lowercased netloc that is empty
or starts or ends with `.`. -/
def is_valid_url (url : PyValue) : Bool :=
  if pd_isna url then false
  else if pyStrip (pyStr url) = "" then false
  else
    let url_str := safe_str_conversion url
    if url_str = "" then false
    else
      let scheme := urlparse_scheme url_str
      let netloc := urlparse_netloc url_str
      if scheme = "" ∨ netloc = "" then false
      else if ¬(scheme = "http" ∨ scheme = "https") then false
      else
        let netloc_l := pyLower netloc
        if netloc_l = "" ∨ strStarts netloc_l "." = true ∨ strEnds netloc_l "." = true then
          false
        else true

/-- `is_valid_url` applied to an actual string (the form the drivers use). -/
def is_valid_url_str (s : String) : Bool :=
  is_valid_url (.vstr s)

/-- `LinkValidator.looks_like_domain_or_url` (src/link_validator.py lines
326-385). -/
def looks_like_domain_or_url (word : String) : Bool :=
  if word.data.length < 4 then false
  else if strContains word "." = false then false
  else
    let base_part := (pySplitChar '/' word).headD ""
    let parts := pySplitChar '.' base_part
    if parts.length < 2 then false
    else
      let tld := parts.getLastD ""
      if ¬(2 ≤ tld.data.length ∧ tld.data.length ≤ 20) then false
      else if ¬(tld.data.all fun c => c.isAlpha || c = '-') then false
      else if ¬(parts.dropLast.all fun part =>
          (!part.data.isEmpty) &&
          (part.data.all fun c => c.isAlphanum || c = '-') &&
          !strStarts part "-" && !strEnds part "-") then false
      else if 100 < base_part.data.length then false
      else if strStarts base_part "." = true ∨ strEnds base_part "." = true then false
      else
        let main_domain := parts.getD (parts.length - 2) ""
        main_domain.data.any Char.isAlpha

/-- The URL prefix markers of `looks_like_url`. -/
def url_indicators : List String :=
  ["http://", "https://", "www.", "ftp://"]

/-- The sentence-indicator substrings of `looks_like_url`. -/
def sentence_indicators : List String :=
  [". ", "! ", "? ", ", and ", ", or ", " the ", " a ", " an ",
   " is ", " are ", " was ", " were ", " will ", " can ", " could ",
   " should ", " would ", " may ", " might ", " this ", " that ",
   " these ", " those ", " with ", " without ", " from ", " into ",
   " about ", " through ", " during ", " before ", " after ", " over ",
   " under ", " above ", " below ", " between ", " among ", " within "]

/-- The punctuation stripped from candidate tokens in `looks_like_url`. -/
def tokenPunct : List Char :=
  ['.', ',', '!', '?', '(', ')', '[', ']', Char.ofNat 123, Char.ofNat 125,
   Char.ofNat 34, Char.ofNat 39, '-']

/-- `LinkValidator.looks_like_url`, FIRST (overridden) definition
(src/link_validator.py lines 230-276): bounds, URL prefix markers, then the
domain-token check, then the sentence-indicator check (which can only
return `False`, as does the fall-through). -/
def looks_like_url_v1 (text0 : String) : Bool :=
  let text := pyStrip text0
  if text.data.length < 4 then false
  else if 200 < text.data.length then false
  else if 2 < text.data.count ' ' then false
  else if url_indicators.any (fun ind => strContains (pyLower text) ind) then true
  else if strContains text "." = true ∧
      (pySplitWs text).any (fun w => looks_like_domain_or_url (pyStripChars tokenPunct w)) then
    true
  else if sentence_indicators.any (fun ind => strContains (pyLower text) ind) then false
  else false

/-- `LinkValidator.looks_like_url`, SECOND (effective) definition
(src/link_validator.py lines 278-324): bounds, URL prefix markers,
sentence-indicator rejection, then the domain-token check. -/
def looks_like_url (text0 : String) : Bool :=
  let text := pyStrip text0
  if text.data.length < 4 then false
  else if 200 < text.data.length then false
  else if 2 < text.data.count ' ' then false
  else if url_indicators.any (fun ind => strContains (pyLower text) ind) then true
  else if sentence_indicators.any (fun ind => strContains (pyLower text) ind) then false
  else if strContains text "." = true then
    (pySplitWs text).any fun w => looks_like_domain_or_url (pyStripChars tokenPunct w)
  else false

/-- `utils.get_progress_interval` (src/utils.py lines 34-53). -/
def get_progress_interval (total : Nat) : Nat :=
  if total < 100 then 5
  else if total < 1000 then 25
  else if total < 10000 then 100
  else if total < 100000 then 500
  else 1000

/-! ## Sorting and deduplicated accumulation

The drivers accumulate unique URLs into Python `set`s and finally emit
`sorted(list(...))`.  A set under value-based insertion is modelled as a
duplicate-free list extended by `addUnique`; `sorted` is modelled by
insertion sort under code-point lexicographic order (Python's `<` on `str`),
which on duplicate-free lists produces the unique sorted arrangement. -/

/-- Code-point lexicographic `≤` on char lists — Python's string order. -/
def charListLe : List Char → List Char → Bool
  | [], _ => true
  | _ :: _, [] => false
  | a :: as, b :: bs => if a = b then charListLe as bs else decide (a < b)

/-- Python's `≤` on strings (code-point lexicographic). -/
def strLe (a b : String) : Bool :=
  charListLe a.data b.data

/-- `strLe` as a relation, for `List.Sorted` statements. -/
def StrLe (a b : String) : Prop :=
  strLe a b = true

instance : DecidableRel StrLe := fun a b =>
  inferInstanceAs (Decidable (strLe a b = true))

/-- Python `sorted` on a list of strings. -/
def sortStrings (l : List String) : List String :=
  l.insertionSort StrLe

/-- The two accumulating result sets of a driver run: (valid, invalid). -/
abbrev UrlAcc := List String × List String

/-- `set.add`: extend a duplicate-free list only with unseen values. -/
def addUnique (l : List String) (s : String) : List String :=
  if s ∈ l then l else l ++ [s]

/-- The shared validation tail of every driver: route a candidate string into
the valid or the invalid set according to `is_valid_url`. -/
def addResult (acc : UrlAcc) (s : String) : UrlAcc :=
  if is_valid_url_str s then (addUnique acc.1 s, acc.2) else (acc.1, addUnique acc.2 s)

/-- The results object `{'valid': [...], 'invalid': [...]}` a driver returns. -/
structure Results where
  valid : List String
  invalid : List String
deriving DecidableEq

/-- One CSV cell (body of the inner loop of `process_csv`,
src/link_validator.py lines 116-125): non-NA cells are converted, and only
non-empty strings accepted by `looks_like_url` are validated. -/
def processCsvCell (acc : UrlAcc) (value : PyValue) : UrlAcc :=
  if pd_isna value then acc
  else
    let url_str := safe_str_conversion value
    if url_str ≠ "" ∧ looks_like_url url_str = true then addResult acc url_str else acc

/-- One CSV column (body of the outer loop of `process_csv`). -/
def processCsvColumn (acc : UrlAcc) (col : List PyValue) : UrlAcc :=
  col.foldl processCsvCell acc

/-- `config.Config.MAX_EXCEL_ROWS`. -/
def MAX_EXCEL_ROWS : Nat := 50000

/-- `config.Config.MAX_EXCEL_COLS`. -/
def MAX_EXCEL_COLS : Nat := 200

/-- One Excel cell (src/link_validator.py lines 193-202): truthy cells are
converted, and only non-empty strings accepted by `looks_like_url` are
validated. -/
def processExcelCell (acc : UrlAcc) (cell : PyValue) : UrlAcc :=
  if pyTruthy cell then
    let cell_str := safe_str_conversion cell
    if cell_str ≠ "" ∧ looks_like_url cell_str = true then addResult acc cell_str else acc
  else acc

/-- One Excel row, truncated to `MAX_EXCEL_COLS` cells (`row[:MAX_EXCEL_COLS]`). -/
def processExcelRow (acc : UrlAcc) (row : List PyValue) : UrlAcc :=
  (row.take MAX_EXCEL_COLS).foldl processExcelCell acc

/-- One Excel sheet, truncated to `MAX_EXCEL_ROWS` rows (`max_row=...`). -/
def processExcelSheet (acc : UrlAcc) (sheet : List (List PyValue)) : UrlAcc :=
  (sheet.take MAX_EXCEL_ROWS).foldl processExcelRow acc

/-- One text line (body of the loop of `process_text`, src/link_validator.py
lines 431-442): the stripped line is processed only when non-empty and
accepted by `looks_like_url`. -/
def processTextLine (acc : UrlAcc) (line : String) : UrlAcc :=
  let line_str := pyStrip line
  if line_str ≠ "" ∧ looks_like_url line_str = true then addResult acc line_str else acc

/-- An HTML element as seen by `process_html`: its `href` and `src`
attributes (absent attributes are `none`). -/
structure HtmlElement where
  href : Option String
  src : Option String

/-- `element.get('href') or element.get('src')`: Python `or` falls through
on `None` and on the falsy empty string. -/
def elemGet (e : HtmlElement) : Option String :=
  match e.href with
  | some h => if h = "" then e.src else some h
  | none => e.src

/-- One HTML element (body of the loop of `process_html`, src/link_validator.py
lines 503-514): a truthy `href`/`src` value is converted and validated
directly — note there is NO `looks_like_url` gate in this driver. -/
def processHtmlElem (acc : UrlAcc) (e : HtmlElement) : UrlAcc :=
  match elemGet e with
  | none => acc
  | some url =>
    if url = "" then acc
    else
      let url_str := safe_str_conversion (.vstr url)
      if url_str = "" then acc
      else addResult acc url_str

/-- A loop with a cooperative cancellation flag checked at the top of every
iteration.  `cancelled i` is the value of `self.processing_cancelled`
observed at the check of iteration `i`. -/
def runCancellable {α : Type} (step : UrlAcc → α → UrlAcc) (cancelled : Nat → Bool) :
    Nat → List α → UrlAcc → UrlAcc
  | _, [], acc => acc
  | i, x :: xs, acc =>
    if cancelled i then acc
    else runCancellable step cancelled (i + 1) xs (step acc x)

/-- The Excel row loop with its cancellation check, threading the index `n`
of the next flag observation; returns the next observation index and the
accumulator. -/
def runExcelRows (cancelled : Nat → Bool) :
    Nat → List (List PyValue) → UrlAcc → Nat × UrlAcc
  | n, [], acc => (n, acc)
  | n, row :: rows, acc =>
    if cancelled n then (n + 1, acc)
    else runExcelRows cancelled (n + 1) rows (processExcelRow acc row)

/-- The Excel sheet loop with its cancellation check. -/
def runExcelSheets (cancelled : Nat → Bool) :
    Nat → List (List (List PyValue)) → UrlAcc → UrlAcc
  | _, [], acc => acc
  | n, sheet :: sheets, acc =>
    if cancelled n then acc
    else
      let p := runExcelRows cancelled (n + 1) (sheet.take MAX_EXCEL_ROWS) acc
      runExcelSheets cancelled p.1 sheets p.2

/-- Sort-and-emit of the accumulated sets (`sorted(list(valid_urls))` /
`sorted(list(invalid_urls))`). -/
def emitResults (acc : UrlAcc) : Results :=
  ⟨sortStrings acc.1, sortStrings acc.2⟩

/-- `LinkValidator.process_csv` on the extracted column streams (the file
reading, size and encoding guards are external preconditions). -/
def process_csv (cols : List (List PyValue)) : Results :=
  emitResults (cols.foldl processCsvColumn ([], []))

/-- `process_csv` with the cancellation flag observed at each column. -/
def process_csv_c (cancelled : Nat → Bool) (cols : List (List PyValue)) : Results :=
  emitResults (runCancellable processCsvColumn cancelled 0 cols ([], []))

/-- `LinkValidator.process_excel` on the extracted sheet/row/cell streams. -/
def process_excel (sheets : List (List (List PyValue))) : Results :=
  emitResults (sheets.foldl processExcelSheet ([], []))

/-- `process_excel` with the cancellation flag observed at each sheet and
each row. -/
def process_excel_c (cancelled : Nat → Bool) (sheets : List (List (List PyValue))) :
    Results :=
  emitResults (runExcelSheets cancelled 0 sheets ([], []))

/-- `LinkValidator.process_text` on the extracted lines. -/
def process_text (lines : List String) : Results :=
  emitResults (lines.foldl processTextLine ([], []))

/-- `process_text` with the cancellation flag observed at each line. -/
def process_text_c (cancelled : Nat → Bool) (lines : List String) : Results :=
  emitResults (runCancellable processTextLine cancelled 0 lines ([], []))

/-- `LinkValidator.process_html` on the extracted elements. -/
def process_html (elements : List HtmlElement) : Results :=
  emitResults (elements.foldl processHtmlElem ([], []))

/-- `process_html` with the cancellation flag observed at each element. -/
def process_html_c (cancelled : Nat → Bool) (elements : List HtmlElement) : Results :=
  emitResults (runCancellable processHtmlElem cancelled 0 elements ([], []))

/-! ## Progress traces

The sequence of fractions a driver passes to its progress callback depends
only on the total item count, never on cell contents; it is modelled as a
list of exact rationals. -/

/-- The progress fractions emitted by `process_csv`: `processed` is
incremented after each cell and reported when divisible by the interval,
and an unconditional final `1.0` follows the loop. -/
def csv_progress (total : Nat) : List ℚ :=
  ((List.range total).filterMap fun p =>
    if (p + 1) % get_progress_interval total = 0 then some (((p : ℚ) + 1) / total)
    else none) ++ [1]

/-- The progress fractions emitted by `process_excel` (the in-loop value is
clamped with `min(..., 1.0)`), with an unconditional final `1.0`. -/
def excel_progress (total : Nat) : List ℚ :=
  ((List.range total).filterMap fun p =>
    if (p + 1) % get_progress_interval total = 0 then
      some (min (((p : ℚ) + 1) / total) 1)
    else none) ++ [1]

/-- The progress fractions emitted by `process_text`: the 0-based loop index
is reported when divisible by the interval, and the duplicated unconditional
final `1.0` block (src/link_validator.py lines 447-453) emits twice. -/
def text_progress (total : Nat) : List ℚ :=
  ((List.range total).filterMap fun i =>
    if i % get_progress_interval total = 0 then some ((i : ℚ) / total) else none) ++ [1, 1]

/-- The progress fractions emitted by `process_html`: only the in-loop
reports `i/total` for the 0-based index `i`; there is no final completion
call (src/link_validator.py lines 516-521). -/
def html_progress (total : Nat) : List ℚ :=
  (List.range total).filterMap fun i =>
    if i % get_progress_interval total = 0 then some ((i : ℚ) / total) else none

/-! ## Spec-side characterisations and truncations (for the claims) -/

/-- The validator as worded by the specification: the trimmed string form
parses to a URI whose scheme is `http` or `https` (the parse already
normalises case) and whose authority is non-empty and, lowercased, does not
start or end with `.`; missing values yield `false`. -/
def is_valid_url_spec (url : PyValue) : Bool :=
  match url with
  | .vnone => false
  | .vnan => false
  | .vstr s =>
    let t := pyStrip s
    if (urlparse_scheme t = "http" ∨ urlparse_scheme t = "https")
        ∧ urlparse_netloc t ≠ ""
        ∧ strStarts (pyLower (urlparse_netloc t)) "." = false
        ∧ strEnds (pyLower (urlparse_netloc t)) "." = false then
      true
    else false

/-- The domain-token matcher as worded by the specification: length ≥ 4 with
a dot; only the part before the first `/` is the candidate domain; splitting
it on `.` gives ≥ 2 parts; the last part has length 2–20 and only alphabetic
characters or `-`; every earlier part is non-empty, alphanumeric-or-`-`, and
does not start or end with `-`; the candidate has length ≤ 100 and no
leading/trailing dot; and the second-to-last part contains a letter. -/
def DomainShape (word : String) : Prop :=
  let base_part := (pySplitChar '/' word).headD ""
  let parts := pySplitChar '.' base_part
  let tld := parts.getLastD ""
  4 ≤ word.data.length ∧
  strContains word "." = true ∧
  2 ≤ parts.length ∧
  2 ≤ tld.data.length ∧ tld.data.length ≤ 20 ∧
  (∀ c ∈ tld.data, c.isAlpha = true ∨ c = '-') ∧
  (∀ part ∈ parts.dropLast,
    part ≠ "" ∧ (∀ c ∈ part.data, c.isAlphanum = true ∨ c = '-') ∧
    strStarts part "-" = false ∧ strEnds part "-" = false) ∧
  base_part.data.length ≤ 100 ∧
  strStarts base_part "." = false ∧
  strEnds base_part "." = false ∧
  (∃ c ∈ (parts.getD (parts.length - 2) "").data, c.isAlpha = true)

/-- The nested-loop truncation of a workbook: the first `s` sheets in full,
then the first `r` rows of sheet `s`. -/
def excelSlice (sheets : List (List (List PyValue))) (s r : Nat) :
    List (List (List PyValue)) :=
  sheets.take s ++ [(sheets.getD s []).take r]


/-! ## Order lemmas for `sortStrings` -/

theorem charListLe_total : ∀ a b : List Char, charListLe a b = true ∨ charListLe b a = true
  | [], _ => Or.inl rfl
  | _ :: _, [] => Or.inr rfl
  | a :: as, b :: bs => by
    by_cases hab : a = b
    · subst hab
      simpa [charListLe] using charListLe_total as bs
    · rcases lt_or_gt_of_ne hab with h | h
      · exact Or.inl (by simp [charListLe, hab, h])
      · exact Or.inr (by simp [charListLe, Ne.symm hab, h])

theorem charListLe_trans :
    ∀ a b c : List Char, charListLe a b = true → charListLe b c = true →
      charListLe a c = true
  | [], _, _, _, _ => rfl
  | a :: as, [], c, h, _ => by simp [charListLe] at h
  | a :: as, b :: bs, [], _, h => by simp [charListLe] at h
  | a :: as, b :: bs, c :: cs, h1, h2 => by
    by_cases hab : a = b <;> by_cases hbc : b = c
    · subst hab; subst hbc
      simp only [charListLe, if_pos rfl] at h1 h2 ⊢
      exact charListLe_trans as bs cs h1 h2
    · subst hab
      simpa [charListLe, hbc] using h2
    · subst hbc
      simpa [charListLe, hab] using h1
    · simp only [charListLe, if_neg hab, decide_eq_true_eq] at h1
      simp only [charListLe, if_neg hbc, decide_eq_true_eq] at h2
      have hac : a < c := lt_trans h1 h2
      simp [charListLe, ne_of_lt hac, hac]

instance : IsTotal String StrLe :=
  ⟨fun a b => charListLe_total a.data b.data⟩

instance : IsTrans String StrLe :=
  ⟨fun a b c => charListLe_trans a.data b.data c.data⟩

theorem sortStrings_sorted (l : List String) : (sortStrings l).Sorted StrLe :=
  List.sorted_insertionSort StrLe l

theorem sortStrings_perm (l : List String) : List.Perm (sortStrings l) l :=
  List.perm_insertionSort StrLe l

theorem mem_sortStrings {l : List String} {s : String} : s ∈ sortStrings l ↔ s ∈ l :=
  (sortStrings_perm l).mem_iff

theorem sortStrings_nodup {l : List String} (h : l.Nodup) : (sortStrings l).Nodup :=
  ((sortStrings_perm l).nodup_iff).mpr h

/-! ## Invariants of the accumulating result sets -/

theorem mem_addUnique {l : List String} {s t : String} :
    t ∈ addUnique l s ↔ t ∈ l ∨ t = s := by
  unfold addUnique
  split
  · rename_i hmem
    constructor
    · exact Or.inl
    · rintro (h | rfl) <;> [exact h; exact hmem]
  · simp

theorem nodup_addUnique {l : List String} (s : String) (h : l.Nodup) :
    (addUnique l s).Nodup := by
  unfold addUnique
  split
  · exact h
  · rename_i hmem
    simp [List.nodup_append, h, hmem]

/-- The invariant every driver maintains on its accumulator: both sets are
duplicate-free, every member of the valid set passes `is_valid_url`, every
member of the invalid set fails it, and every member of either set satisfies
the driver-specific admission predicate `P`. -/
def AccInvP (P : String → Prop) (acc : UrlAcc) : Prop :=
  acc.1.Nodup ∧ acc.2.Nodup ∧
  (∀ s ∈ acc.1, is_valid_url_str s = true ∧ P s) ∧
  (∀ s ∈ acc.2, is_valid_url_str s = false ∧ P s)

theorem AccInvP_nil (P : String → Prop) : AccInvP P ([], []) := by
  refine ⟨List.nodup_nil, List.nodup_nil, ?_, ?_⟩ <;> simp

theorem AccInvP_addResult {P : String → Prop} {acc : UrlAcc} {s : String}
    (h : AccInvP P acc) (hs : P s) : AccInvP P (addResult acc s) := by
  obtain ⟨h1, h2, h3, h4⟩ := h
  unfold addResult
  split
  · rename_i hv
    refine ⟨nodup_addUnique s h1, h2, ?_, h4⟩
    intro t ht
    rcases mem_addUnique.mp ht with ht | rfl
    · exact h3 t ht
    · exact ⟨hv, hs⟩
  · rename_i hv
    refine ⟨h1, nodup_addUnique s h2, h3, ?_⟩
    intro t ht
    rcases mem_addUnique.mp ht with ht | rfl
    · exact h4 t ht
    · exact ⟨Bool.eq_false_iff.mpr hv, hs⟩

/-- A driver step is "good" for `P` when it either leaves the accumulator
unchanged or routes exactly one candidate satisfying `P` through
`addResult`. -/
def GoodStep {α : Type} (P : String → Prop) (step : UrlAcc → α → UrlAcc) : Prop :=
  ∀ acc x, step acc x = acc ∨ ∃ s, P s ∧ step acc x = addResult acc s

/-- A step preserves the invariant. -/
def PresInv {α : Type} (P : String → Prop) (step : UrlAcc → α → UrlAcc) : Prop :=
  ∀ acc x, AccInvP P acc → AccInvP P (step acc x)

theorem GoodStep.presInv {α : Type} {P : String → Prop} {step : UrlAcc → α → UrlAcc}
    (hg : GoodStep P step) : PresInv P step := by
  intro acc x h
  rcases hg acc x with heq | ⟨s, hs, heq⟩
  · rw [heq]; exact h
  · rw [heq]; exact AccInvP_addResult h hs

theorem AccInvP_foldl {α : Type} {P : String → Prop} {step : UrlAcc → α → UrlAcc}
    (hp : PresInv P step) :
    ∀ (l : List α) (acc : UrlAcc), AccInvP P acc → AccInvP P (l.foldl step acc)
  | [], _, h => h
  | x :: xs, acc, h => AccInvP_foldl hp xs (step acc x) (hp acc x h)

theorem PresInv.foldl_take {α : Type} {P : String → Prop} {step : UrlAcc → α → UrlAcc}
    (hp : PresInv P step) (n : Nat) :
    PresInv P (fun acc (l : List α) => (l.take n).foldl step acc) := by
  intro acc l h
  exact AccInvP_foldl hp (l.take n) acc h

/-- Weakening the admission predicate of a good step. -/
theorem GoodStep.mono {α : Type} {P Q : String → Prop} {step : UrlAcc → α → UrlAcc}
    (hg : GoodStep P step) (hPQ : ∀ s, P s → Q s) : GoodStep Q step := by
  intro acc x
  rcases hg acc x with h | ⟨s, hs, h⟩
  · exact Or.inl h
  · exact Or.inr ⟨s, hPQ s hs, h⟩

/-- Every string the CSV cell step admits was accepted by `looks_like_url`. -/
theorem goodStep_processCsvCell :
    GoodStep (fun s => looks_like_url s = true) processCsvCell := by
  intro acc v
  unfold processCsvCell
  split
  · exact Or.inl rfl
  · dsimp only
    split
    · rename_i h
      exact Or.inr ⟨safe_str_conversion v, h.2, rfl⟩
    · exact Or.inl rfl

/-- Every string the Excel cell step admits was accepted by `looks_like_url`. -/
theorem goodStep_processExcelCell :
    GoodStep (fun s => looks_like_url s = true) processExcelCell := by
  intro acc v
  unfold processExcelCell
  split
  · dsimp only
    split
    · rename_i h
      exact Or.inr ⟨safe_str_conversion v, h.2, rfl⟩
    · exact Or.inl rfl
  · exact Or.inl rfl

/-- Every string the text line step admits was accepted by `looks_like_url`. -/
theorem goodStep_processTextLine :
    GoodStep (fun s => looks_like_url s = true) processTextLine := by
  intro acc line
  unfold processTextLine
  dsimp only
  split
  · rename_i h
    exact Or.inr ⟨pyStrip line, h.2, rfl⟩
  · exact Or.inl rfl

/-- The HTML element step routes candidates straight to `addResult` with no
classifier gate. -/
theorem goodStep_processHtmlElem : GoodStep (fun _ => True) processHtmlElem := by
  intro acc e
  unfold processHtmlElem
  split
  · exact Or.inl rfl
  · split
    · exact Or.inl rfl
    · dsimp only
      split
      · exact Or.inl rfl
      · exact Or.inr ⟨_, trivial, rfl⟩

theorem presInv_processCsvColumn {P : String → Prop}
    (h : GoodStep P processCsvCell) : PresInv P processCsvColumn := by
  intro acc col hacc
  exact AccInvP_foldl h.presInv col acc hacc

theorem presInv_processExcelRow {P : String → Prop}
    (h : GoodStep P processExcelCell) : PresInv P processExcelRow := by
  intro acc row hacc
  exact AccInvP_foldl h.presInv _ acc hacc

theorem presInv_processExcelSheet {P : String → Prop}
    (h : GoodStep P processExcelCell) : PresInv P processExcelSheet := by
  intro acc sheet hacc
  exact AccInvP_foldl (presInv_processExcelRow h) _ acc hacc

/-! ## The cancellation loops -/

theorem runCancellable_false {α : Type} (step : UrlAcc → α → UrlAcc) :
    ∀ (l : List α) (i : Nat) (acc : UrlAcc),
      runCancellable step (fun _ => false) i l acc = l.foldl step acc
  | [], _, _ => rfl
  | x :: xs, i, acc => by
    simp only [runCancellable, Bool.false_eq_true, if_false, List.foldl_cons]
    exact runCancellable_false step xs (i + 1) (step acc x)

/-- Under a monotone flag that first reads true at observation `k`, a
cancellable loop entered at observation index `i` processes exactly the first
`k - i` items. -/
theorem runCancellable_thresh {α : Type} (step : UrlAcc → α → UrlAcc)
    {cancelled : Nat → Bool} {k : Nat} (hf : ∀ i, cancelled i = true ↔ k ≤ i) :
    ∀ (l : List α) (i : Nat) (acc : UrlAcc),
      runCancellable step cancelled i l acc = (l.take (k - i)).foldl step acc
  | [], i, acc => by simp [runCancellable]
  | x :: xs, i, acc => by
    rw [runCancellable]
    by_cases h : k ≤ i
    · have h0 : k - i = 0 := by omega
      rw [if_pos ((hf i).mpr h), h0]
      rfl
    · have hci : cancelled i = false := by
        cases hc : cancelled i
        · rfl
        · exact absurd ((hf i).mp hc) h
      have h2 : k - i = (k - (i + 1)) + 1 := by omega
      rw [hci, if_neg (by simp), h2, List.take_succ_cons, List.foldl_cons]
      exact runCancellable_thresh step hf xs (i + 1) (step acc x)

/-- Under a monotone flag first true at observation `k`, the Excel row loop
entered at observation `n` processes exactly the first `k - n` rows, and the
next observation index either records an uncancelled pass or has moved past
`k`. -/
theorem runExcelRows_thresh {cancelled : Nat → Bool} {k : Nat}
    (hf : ∀ i, cancelled i = true ↔ k ≤ i) :
    ∀ (rows : List (List PyValue)) (n : Nat) (acc : UrlAcc),
      (runExcelRows cancelled n rows acc).2 = (rows.take (k - n)).foldl processExcelRow acc
      ∧ ((rows.length ≤ k - n ∧ (runExcelRows cancelled n rows acc).1 = n + rows.length)
         ∨ (k < (runExcelRows cancelled n rows acc).1))
  | [], n, acc => by simp [runExcelRows]
  | row :: rows, n, acc => by
    rw [runExcelRows]
    by_cases h : k ≤ n
    · have h0 : k - n = 0 := by omega
      rw [if_pos ((hf n).mpr h), h0]
      exact ⟨rfl, Or.inr (by omega)⟩
    · have hci : cancelled n = false := by
        cases hc : cancelled n
        · rfl
        · exact absurd ((hf n).mp hc) h
      rw [hci, if_neg (by simp)]
      obtain ⟨ih1, ih2⟩ := runExcelRows_thresh hf rows (n + 1) (processExcelRow acc row)
      have h2 : k - n = (k - (n + 1)) + 1 := by omega
      refine ⟨?_, ?_⟩
      · rw [ih1, h2, List.take_succ_cons, List.foldl_cons]
      · rcases ih2 with ⟨hlen, hctr⟩ | hctr
        · exact Or.inl ⟨by simp; omega, by rw [hctr]; simp; omega⟩
        · exact Or.inr hctr

/-- Once the flag has turned true, the Excel sheet loop stops immediately. -/
theorem runExcelSheets_stopped {cancelled : Nat → Bool} {k : Nat}
    (hf : ∀ i, cancelled i = true ↔ k ≤ i)
    (sheets : List (List (List PyValue))) (n : Nat) (acc : UrlAcc) (h : k < n) :
    runExcelSheets cancelled n sheets acc = acc := by
  cases sheets with
  | nil => rfl
  | cons sheet rest =>
    rw [runExcelSheets, if_pos]
    exact (hf n).mpr (by omega)

theorem processExcelSheet_nil (acc : UrlAcc) : processExcelSheet acc [] = acc := by
  simp [processExcelSheet]

/-- Under a monotone flag first true at observation `k`, the Excel sheet loop
computes the uncancelled accumulation of some nested-loop truncation of its
input. -/
theorem runExcelSheets_thresh {cancelled : Nat → Bool} {k : Nat}
    (hf : ∀ i, cancelled i = true ↔ k ≤ i) :
    ∀ (sheets : List (List (List PyValue))) (n : Nat) (acc : UrlAcc),
      ∃ s r, runExcelSheets cancelled n sheets acc
        = (excelSlice sheets s r).foldl processExcelSheet acc
  | [], n, acc => by
    refine ⟨0, 0, ?_⟩
    simp [excelSlice, runExcelSheets, processExcelSheet_nil]
  | sheet :: rest, n, acc => by
    rw [runExcelSheets]
    by_cases h : k ≤ n
    · refine ⟨0, 0, ?_⟩
      rw [if_pos ((hf n).mpr h)]
      simp [excelSlice, processExcelSheet_nil, processExcelSheet]
    · have hci : cancelled n = false := by
        cases hc : cancelled n
        · rfl
        · exact absurd ((hf n).mp hc) h
      rw [hci, if_neg (by simp)]
      obtain ⟨hacc, hctr⟩ :=
        runExcelRows_thresh hf (sheet.take MAX_EXCEL_ROWS) (n + 1) acc
      rcases hctr with ⟨hlen, hctr⟩ | hctr
      · -- the whole sheet was processed without observing a true flag
        have hfull : ((sheet.take MAX_EXCEL_ROWS).take (k - (n + 1)))
            = sheet.take MAX_EXCEL_ROWS := List.take_of_length_le hlen
        obtain ⟨s, r, ih⟩ :=
          runExcelSheets_thresh hf rest
            (runExcelRows cancelled (n + 1) (sheet.take MAX_EXCEL_ROWS) acc).1
            (runExcelRows cancelled (n + 1) (sheet.take MAX_EXCEL_ROWS) acc).2
        refine ⟨s + 1, r, ?_⟩
        rw [ih, hacc, hfull]
        simp only [excelSlice, List.take_succ_cons, List.getD_cons_succ,
          List.cons_append, List.foldl_cons]
        rfl
      · -- the flag turned true inside this sheet's row loop
        rw [runExcelSheets_stopped hf rest _ _ hctr, hacc]
        refine ⟨0, k - (n + 1), ?_⟩
        simp only [excelSlice, List.take_zero, List.getD_cons_zero, List.nil_append,
          List.foldl_cons, List.foldl_nil]
        unfold processExcelSheet
        rw [List.take_take, List.take_take, Nat.min_comm]

/-! ## Spec-side characterisations (for the refinement claims) -/

theorem str_eq_empty_iff {s : String} : s = "" ↔ s.data = [] := by
  cases s
  simp [String.ext_iff]

theorem pyLower_eq_empty_iff {s : String} : pyLower s = "" ↔ s = "" := by
  rw [str_eq_empty_iff, str_eq_empty_iff (s := s)]
  simp [pyLower]

theorem is_valid_url_eq_spec (v : PyValue) : is_valid_url v = is_valid_url_spec v := by
  cases v with
  | vnone => decide
  | vnan => decide
  | vstr s =>
    simp only [is_valid_url, is_valid_url_spec, pd_isna, pyStr, Bool.false_eq_true,
      if_false]
    have hconv : safe_str_conversion (.vstr s) = pyStrip s := rfl
    rw [hconv]
    by_cases ht : pyStrip s = ""
    · rw [ht]
      decide
    · rw [if_neg ht, if_neg ht]
      set t := pyStrip s with hts
      by_cases h3 : urlparse_scheme t = "" ∨ urlparse_netloc t = ""
      · rw [if_pos h3]
        rcases h3 with h3 | h3
        · rw [if_neg]
          intro hcon
          rcases hcon.1 with h | h <;> rw [h3] at h <;> exact absurd h (by decide)
        · rw [if_neg]
          intro hcon
          exact hcon.2.1 h3
      · rw [if_neg h3]
        push_neg at h3
        by_cases h4 : urlparse_scheme t = "http" ∨ urlparse_scheme t = "https"
        · rw [if_neg (not_not_intro h4)]
          by_cases h5 : pyLower (urlparse_netloc t) = ""
              ∨ strStarts (pyLower (urlparse_netloc t)) "." = true
              ∨ strEnds (pyLower (urlparse_netloc t)) "." = true
          · rw [if_pos h5, if_neg]
            intro hcon
            rcases h5 with h5 | h5 | h5
            · exact h3.2 (pyLower_eq_empty_iff.mp h5)
            · rw [hcon.2.2.1] at h5
              exact absurd h5 (by decide)
            · rw [hcon.2.2.2] at h5
              exact absurd h5 (by decide)
          · push_neg at h5
            rw [if_neg (by push_neg; exact h5), if_pos]
            exact ⟨h4, h3.2, Bool.eq_false_iff.mpr h5.2.1, Bool.eq_false_iff.mpr h5.2.2⟩
        · rw [if_pos h4, if_neg]
          intro hcon
          exact h4 hcon.1

theorem looks_like_domain_or_url_iff (word : String) :
    looks_like_domain_or_url word = true ↔ DomainShape word := by
  simp only [looks_like_domain_or_url, DomainShape]
  by_cases c1 : word.data.length < 4
  · rw [if_pos c1]
    simp only [Bool.false_eq_true, false_iff]
    rintro ⟨A1, -⟩
    omega
  rw [if_neg c1]
  by_cases c2 : strContains word "." = false
  · rw [if_pos c2]
    simp only [Bool.false_eq_true, false_iff]
    rintro ⟨-, A2, -⟩
    rw [A2] at c2
    exact absurd c2 (by decide)
  rw [if_neg c2]
  by_cases c3 : (pySplitChar '.' ((pySplitChar '/' word).headD "")).length < 2
  · rw [if_pos c3]
    simp only [Bool.false_eq_true, false_iff]
    rintro ⟨-, -, A3, -⟩
    omega
  rw [if_neg c3]
  by_cases c4 : ¬(2 ≤ ((pySplitChar '.' ((pySplitChar '/' word).headD "")).getLastD "").data.length
      ∧ ((pySplitChar '.' ((pySplitChar '/' word).headD "")).getLastD "").data.length ≤ 20)
  · rw [if_pos c4]
    simp only [Bool.false_eq_true, false_iff]
    rintro ⟨-, -, -, A4, A5, -⟩
    exact c4 ⟨A4, A5⟩
  rw [if_neg c4]
  by_cases c5 : ¬((((pySplitChar '.' ((pySplitChar '/' word).headD "")).getLastD "").data.all
      fun c => c.isAlpha || c = '-') = true)
  · rw [if_pos c5]
    simp only [Bool.false_eq_true, false_iff]
    rintro ⟨-, -, -, -, -, A6, -⟩
    refine c5 (List.all_eq_true.mpr fun c hc => ?_)
    rcases A6 c hc with hA | hA <;> simp [hA]
  rw [if_neg c5]
  by_cases c6 : ¬(((pySplitChar '.' ((pySplitChar '/' word).headD "")).dropLast.all
      fun part => (!part.data.isEmpty) && (part.data.all fun c => c.isAlphanum || c = '-')
        && !strStarts part "-" && !strEnds part "-") = true)
  · rw [if_pos c6]
    simp only [Bool.false_eq_true, false_iff]
    rintro ⟨-, -, -, -, -, -, A7, -⟩
    refine c6 (List.all_eq_true.mpr fun part hp => ?_)
    obtain ⟨hne, hch, hst, hen⟩ := A7 part hp
    have hdata : ¬(part.data = []) := fun hd => hne (str_eq_empty_iff.mpr hd)
    simp only [Bool.and_eq_true, Bool.not_eq_true', hst, hen]
    refine ⟨⟨⟨?_, List.all_eq_true.mpr fun c hc => ?_⟩, trivial⟩, trivial⟩
    · simpa [List.isEmpty_iff] using hdata
    · rcases hch c hc with hA | hA <;> simp [hA]
  rw [if_neg c6]
  by_cases c7 : 100 < ((pySplitChar '/' word).headD "").data.length
  · rw [if_pos c7]
    simp only [Bool.false_eq_true, false_iff]
    rintro ⟨-, -, -, -, -, -, -, A8, -⟩
    omega
  rw [if_neg c7]
  by_cases c8 : strStarts ((pySplitChar '/' word).headD "") "." = true
      ∨ strEnds ((pySplitChar '/' word).headD "") "." = true
  · rw [if_pos c8]
    simp only [Bool.false_eq_true, false_iff]
    rintro ⟨-, -, -, -, -, -, -, -, A9, A10, -⟩
    rcases c8 with c8 | c8
    · rw [A9] at c8
      exact absurd c8 (by decide)
    · rw [A10] at c8
      exact absurd c8 (by decide)
  rw [if_neg c8]
  push_neg at c4 c5 c6 c8
  constructor
  · intro hany
    refine ⟨by omega, by simpa using c2, by omega, c4.1, c4.2, ?_, ?_, by omega,
      Bool.eq_false_iff.mpr c8.1, Bool.eq_false_iff.mpr c8.2, ?_⟩
    · intro c hc
      have hall : c.isAlpha = true ∨ c = '-' := by
        simpa using List.all_eq_true.mp c5 c hc
      exact hall
    · intro part hp
      have hall := List.all_eq_true.mp c6 part hp
      simp only [Bool.and_eq_true, Bool.not_eq_true'] at hall
      obtain ⟨⟨⟨hne, hch⟩, hst⟩, hen⟩ := hall
      refine ⟨?_, ?_, hst, hen⟩
      · intro he
        rw [str_eq_empty_iff] at he
        simp [he] at hne
      · intro c hc
        have hcc : c.isAlphanum = true ∨ c = '-' := by
          simpa using List.all_eq_true.mp hch c hc
        exact hcc
    · simpa [List.any_eq_true] using hany
  · rintro ⟨-, -, -, -, -, -, -, -, -, -, A11⟩
    simpa [List.any_eq_true] using A11

/-! ## Results-level facts -/

theorem emitResults_facts {P : String → Prop} {acc : UrlAcc} (h : AccInvP P acc) :
    (emitResults acc).valid.Sorted StrLe ∧ (emitResults acc).invalid.Sorted StrLe ∧
    (emitResults acc).valid.Nodup ∧ (emitResults acc).invalid.Nodup ∧
    ∀ s, s ∈ (emitResults acc).valid → s ∉ (emitResults acc).invalid := by
  obtain ⟨h1, h2, h3, h4⟩ := h
  refine ⟨sortStrings_sorted _, sortStrings_sorted _,
    sortStrings_nodup h1, sortStrings_nodup h2, ?_⟩
  intro s hv hi
  have hv' := (h3 s (mem_sortStrings.mp hv)).1
  have hi' := (h4 s (mem_sortStrings.mp hi)).1
  rw [hv'] at hi'
  cases hi'

theorem emitResults_mem {P : String → Prop} {acc : UrlAcc} (h : AccInvP P acc)
    {s : String} (hs : s ∈ (emitResults acc).valid ∨ s ∈ (emitResults acc).invalid) :
    P s := by
  obtain ⟨-, -, h3, h4⟩ := h
  rcases hs with hs | hs
  · exact (h3 s (mem_sortStrings.mp hs)).2
  · exact (h4 s (mem_sortStrings.mp hs)).2

theorem csv_inv (cols : List (List PyValue)) :
    AccInvP (fun s => looks_like_url s = true) (cols.foldl processCsvColumn ([], [])) :=
  AccInvP_foldl (presInv_processCsvColumn goodStep_processCsvCell) cols _ (AccInvP_nil _)

theorem excel_inv (sheets : List (List (List PyValue))) :
    AccInvP (fun s => looks_like_url s = true) (sheets.foldl processExcelSheet ([], [])) :=
  AccInvP_foldl (presInv_processExcelSheet goodStep_processExcelCell) sheets _ (AccInvP_nil _)

theorem text_inv (lines : List String) :
    AccInvP (fun s => looks_like_url s = true) (lines.foldl processTextLine ([], [])) :=
  AccInvP_foldl goodStep_processTextLine.presInv lines _ (AccInvP_nil _)

theorem html_inv (elements : List HtmlElement) :
    AccInvP (fun _ => True) (elements.foldl processHtmlElem ([], [])) :=
  AccInvP_foldl goodStep_processHtmlElem.presInv elements _ (AccInvP_nil _)

/-! ## The claims -/

/-- C2: `is_valid_url` returns true exactly when the trimmed string form of
its input parses to a URI whose scheme is http or https (case-insensitively;
never any other scheme such as ftp) and whose authority is non-empty and,
lowercased, neither starts nor ends with `.`; concretely it accepts
`http://example.com` and rejects `ftp://example.com`, `https://`, the empty
string, `None`, NaN and `https://example.com.`, without error. -/
theorem C2_is_valid_url_correct :
    (∀ v : PyValue, is_valid_url v = is_valid_url_spec v) ∧
    is_valid_url_str "http://example.com" = true ∧
    is_valid_url_str "ftp://example.com" = false ∧
    is_valid_url_str "https://" = false ∧
    is_valid_url_str "" = false ∧
    is_valid_url .vnone = false ∧
    is_valid_url .vnan = false ∧
    is_valid_url_str "https://example.com." = false :=
  ⟨is_valid_url_eq_spec, by decide, by decide, by decide, by decide, by decide,
    by decide, by decide⟩

/-- C5: `looks_like_domain_or_url` holds exactly for words of the
specification's domain shape; concretely it accepts `example.com` and
`arxiv.org/ai-safety` and rejects `a..b.com` and `-bad.com`. -/
theorem C5_domain_matcher_correct :
    (∀ w : String, looks_like_domain_or_url w = true ↔ DomainShape w) ∧
    looks_like_domain_or_url "example.com" = true ∧
    looks_like_domain_or_url "arxiv.org/ai-safety" = true ∧
    looks_like_domain_or_url "a..b.com" = false ∧
    looks_like_domain_or_url "-bad.com" = false :=
  ⟨looks_like_domain_or_url_iff, by decide, by decide, by decide, by decide⟩

/-- C3: the classifier rejects every string whose trimmed length is below 4
or above 200, and accepts every string within those bounds with at most two
spaces whose lowercase form contains one of the four URL prefix markers —
the bounds are checked first, so a 300-character string containing
`https://` is still rejected. -/
theorem C3_classifier_bounds (s : String) :
    ((pyStrip s).data.length < 4 ∨ 200 < (pyStrip s).data.length →
      looks_like_url s = false) ∧
    (4 ≤ (pyStrip s).data.length → (pyStrip s).data.length ≤ 200 →
      (pyStrip s).data.count ' ' ≤ 2 →
      (strContains (pyLower (pyStrip s)) "http://" = true ∨
       strContains (pyLower (pyStrip s)) "https://" = true ∨
       strContains (pyLower (pyStrip s)) "www." = true ∨
       strContains (pyLower (pyStrip s)) "ftp://" = true) →
      looks_like_url s = true) := by
  constructor
  · intro h
    simp only [looks_like_url]
    rcases h with h | h
    · rw [if_pos h]
    · rw [if_neg (by omega), if_pos h]
  · intro h1 h2 h3 h4
    simp only [looks_like_url]
    rw [if_neg (by omega), if_neg (by omega), if_neg (by omega), if_pos]
    have : (url_indicators.any fun ind => strContains (pyLower (pyStrip s)) ind) =
        (strContains (pyLower (pyStrip s)) "http://" ||
         strContains (pyLower (pyStrip s)) "https://" ||
         strContains (pyLower (pyStrip s)) "www." ||
         strContains (pyLower (pyStrip s)) "ftp://") := by
      simp [url_indicators, Bool.or_assoc]
    rw [this]
    rcases h4 with h4 | h4 | h4 | h4 <;> simp [h4]

set_option maxRecDepth 4000 in
/-- C3 witness:  at the concrete inputs `"ab"`, `"https://" ++ 292 · 'a'`
(length 300) and `"HTTP://x"` the two parts of `C3_classifier_bounds` apply. -/
theorem C3_classifier_bounds_witness :
    looks_like_url "ab" = false ∧
    looks_like_url ("https://".append ⟨List.replicate 292 'a'⟩) = false ∧
    looks_like_url "HTTP://x" = true := by
  refine ⟨(C3_classifier_bounds "ab").1 (by decide), ?_, ?_⟩
  · exact (C3_classifier_bounds _).1 (by right; decide)
  · exact (C3_classifier_bounds "HTTP://x").2 (by decide) (by decide) (by decide)
      (by left; decide)

/-- C4: in the effective (second) definition of `looks_like_url` the
sentence-indicator rejection precedes the domain-token check: any fragment
passing the length and space bounds, containing no URL prefix marker but
containing a sentence indicator, is rejected — even when one of its tokens
has domain shape, as `visit the example.com` shows (the overridden first
definition accepts it, the effective one rejects it). -/
theorem C4_sentence_rejection_order :
    (∀ s : String,
      4 ≤ (pyStrip s).data.length → (pyStrip s).data.length ≤ 200 →
      (pyStrip s).data.count ' ' ≤ 2 →
      (url_indicators.any fun ind => strContains (pyLower (pyStrip s)) ind) = false →
      (sentence_indicators.any fun ind => strContains (pyLower (pyStrip s)) ind) = true →
      looks_like_url s = false) ∧
    looks_like_url_v1 "visit the example.com" = true ∧
    looks_like_url "visit the example.com" = false := by
  refine ⟨?_, by decide, by decide⟩
  intro s h1 h2 h3 hurl hsent
  simp only [looks_like_url]
  rw [if_neg (by omega), if_neg (by omega), if_neg (by omega),
    if_neg (by simp [hurl]), if_pos hsent]

/-- C4 witness: the general part applied at `visit the example.com`. -/
theorem C4_sentence_rejection_order_witness :
    looks_like_url "visit the example.com" = false :=
  C4_sentence_rejection_order.1 "visit the example.com" (by decide) (by decide)
    (by decide) (by decide) (by decide)

/-- C6: processing the six given text lines yields exactly the four sorted
valid URLs and an empty invalid list; `not-a-url` is dropped by the
classifier (it has no dot-bearing token) and never reaches either set. -/
theorem C6_text_end_to_end :
    process_text ["http://example.com", "https://google.com", "not-a-url",
        "http://localhost:3000", "", "https://github.com"]
      = ⟨["http://example.com", "http://localhost:3000", "https://github.com",
          "https://google.com"], []⟩ ∧
    looks_like_url "not-a-url" = false := by
  constructor
  · decide
  · decide

/-- C8: the progress interval table — 5 below 100 items, 25 below 1000, 100
below 10000, 500 below 100000, and 1000 from 100000 on (the drivers' progress
traces are all defined over `get_progress_interval`). -/
theorem C8_progress_interval_table (total : Nat) :
    (total < 100 → get_progress_interval total = 5) ∧
    (100 ≤ total → total < 1000 → get_progress_interval total = 25) ∧
    (1000 ≤ total → total < 10000 → get_progress_interval total = 100) ∧
    (10000 ≤ total → total < 100000 → get_progress_interval total = 500) ∧
    (100000 ≤ total → get_progress_interval total = 1000) := by
  unfold get_progress_interval
  refine ⟨fun h => ?_, fun h h' => ?_, fun h h' => ?_, fun h h' => ?_, fun h => ?_⟩
  · rw [if_pos h]
  · rw [if_neg (by omega), if_pos h']
  · rw [if_neg (by omega), if_neg (by omega), if_pos h']
  · rw [if_neg (by omega), if_neg (by omega), if_neg (by omega), if_pos h']
  · rw [if_neg (by omega), if_neg (by omega), if_neg (by omega), if_neg (by omega)]

/-- C8 witness: the table applied at one total per band. -/
theorem C8_progress_interval_table_witness :
    get_progress_interval 50 = 5 ∧ get_progress_interval 500 = 25 ∧
    get_progress_interval 5000 = 100 ∧ get_progress_interval 50000 = 500 ∧
    get_progress_interval 500000 = 1000 :=
  ⟨(C8_progress_interval_table 50).1 (by norm_num),
   (C8_progress_interval_table 500).2.1 (by norm_num) (by norm_num),
   (C8_progress_interval_table 5000).2.2.1 (by norm_num) (by norm_num),
   (C8_progress_interval_table 50000).2.2.2.1 (by norm_num) (by norm_num),
   (C8_progress_interval_table 500000).2.2.2.2 (by norm_num)⟩

/-- C1 counterexample: the markup driver has no classifier gate, so the
claimed all-driver invariant fails — `not-a-url`, rejected by
`looks_like_url`, appears in `process_html`'s invalid set. -/
theorem C1_counterexample :
    (process_html [⟨some "not-a-url", none⟩]).invalid = ["not-a-url"] ∧
    looks_like_url "not-a-url" = false := by
  constructor
  · decide
  · decide

/-- C1 (amended): for the tabular, spreadsheet and line-text drivers every
string in the returned valid or invalid set was accepted by
`looks_like_url` — the markup driver validates extracted attribute values
directly and is exempt. -/
theorem C1_classifier_gate :
    (∀ (cols : List (List PyValue)) (s : String),
      s ∈ (process_csv cols).valid ∨ s ∈ (process_csv cols).invalid →
      looks_like_url s = true) ∧
    (∀ (sheets : List (List (List PyValue))) (s : String),
      s ∈ (process_excel sheets).valid ∨ s ∈ (process_excel sheets).invalid →
      looks_like_url s = true) ∧
    (∀ (lines : List String) (s : String),
      s ∈ (process_text lines).valid ∨ s ∈ (process_text lines).invalid →
      looks_like_url s = true) :=
  ⟨fun cols _ hs => emitResults_mem (csv_inv cols) hs,
   fun sheets _ hs => emitResults_mem (excel_inv sheets) hs,
   fun lines _ hs => emitResults_mem (text_inv lines) hs⟩

/-- C1 witness: the gate theorem applied to a one-cell CSV run. -/
theorem C1_classifier_gate_witness : looks_like_url "http://a.com" = true :=
  C1_classifier_gate.1 [[.vstr "http://a.com"]] "http://a.com" (Or.inl (by decide))

/-- C7: every driver returns two duplicate-free lexicographically sorted
lists whose sets are disjoint, and feeding the same valid URL in two
different columns yields exactly one entry in the valid list. -/
theorem C7_results_invariants :
    (∀ cols : List (List PyValue),
      (process_csv cols).valid.Sorted StrLe ∧ (process_csv cols).invalid.Sorted StrLe ∧
      (process_csv cols).valid.Nodup ∧ (process_csv cols).invalid.Nodup ∧
      ∀ s, s ∈ (process_csv cols).valid → s ∉ (process_csv cols).invalid) ∧
    (∀ sheets : List (List (List PyValue)),
      (process_excel sheets).valid.Sorted StrLe ∧
      (process_excel sheets).invalid.Sorted StrLe ∧
      (process_excel sheets).valid.Nodup ∧ (process_excel sheets).invalid.Nodup ∧
      ∀ s, s ∈ (process_excel sheets).valid → s ∉ (process_excel sheets).invalid) ∧
    (∀ lines : List String,
      (process_text lines).valid.Sorted StrLe ∧ (process_text lines).invalid.Sorted StrLe ∧
      (process_text lines).valid.Nodup ∧ (process_text lines).invalid.Nodup ∧
      ∀ s, s ∈ (process_text lines).valid → s ∉ (process_text lines).invalid) ∧
    (∀ elements : List HtmlElement,
      (process_html elements).valid.Sorted StrLe ∧
      (process_html elements).invalid.Sorted StrLe ∧
      (process_html elements).valid.Nodup ∧ (process_html elements).invalid.Nodup ∧
      ∀ s, s ∈ (process_html elements).valid → s ∉ (process_html elements).invalid) ∧
    (process_csv [[.vstr "http://a.com"], [.vstr "http://a.com"]]).valid
      = ["http://a.com"] :=
  ⟨fun cols => emitResults_facts (csv_inv cols),
   fun sheets => emitResults_facts (excel_inv sheets),
   fun lines => emitResults_facts (text_inv lines),
   fun elements => emitResults_facts (html_inv elements),
   by decide⟩

/-- C7 witness: disjointness applied at a concrete CSV run and member. -/
theorem C7_results_invariants_witness :
    "http://a.com" ∉ (process_csv [[.vstr "http://a.com"], [.vstr "http://a.com"]]).invalid :=
  (C7_results_invariants.1 [[.vstr "http://a.com"], [.vstr "http://a.com"]]).2.2.2.2
    "http://a.com" (by decide)

/-- C9: when the cancellation flag (monotone, first observed true at check
`k`) turns on mid-stream, each driver stops at the next outer-loop check and
returns the normal results object of the prefix it had processed — no
exception, no special flag.  For the single-level drivers the prefix is
`take k`; for the two-level Excel driver it is a nested-loop truncation. -/
theorem C9_cancellation (cancelled : Nat → Bool) (k : Nat)
    (hf : ∀ i, cancelled i = true ↔ k ≤ i) :
    (∀ lines, process_text_c cancelled lines = process_text (lines.take k)) ∧
    (∀ cols, process_csv_c cancelled cols = process_csv (cols.take k)) ∧
    (∀ elements, process_html_c cancelled elements = process_html (elements.take k)) ∧
    (∀ sheets, ∃ s r,
      process_excel_c cancelled sheets = process_excel (excelSlice sheets s r)) := by
  refine ⟨fun lines => ?_, fun cols => ?_, fun elements => ?_, fun sheets => ?_⟩
  · unfold process_text_c process_text
    rw [runCancellable_thresh processTextLine hf, Nat.sub_zero]
  · unfold process_csv_c process_csv
    rw [runCancellable_thresh processCsvColumn hf, Nat.sub_zero]
  · unfold process_html_c process_html
    rw [runCancellable_thresh processHtmlElem hf, Nat.sub_zero]
  · obtain ⟨s, r, h⟩ := runExcelSheets_thresh hf sheets 0 ([], [])
    refine ⟨s, r, ?_⟩
    unfold process_excel_c process_excel
    rw [h]

/-- C9 witness: a flag that turns true at the second check truncates each
driver to its first item. -/
theorem C9_cancellation_witness :
    (process_text_c (fun i => decide (1 ≤ i)) ["http://example.com", "ftp://x.com"]
      = process_text (["http://example.com", "ftp://x.com"].take 1)) ∧
    (process_csv_c (fun i => decide (1 ≤ i)) [[.vstr "http://a.com"], [.vstr "http://b.com"]]
      = process_csv ([[.vstr "http://a.com"], [.vstr "http://b.com"]].take 1)) ∧
    (process_html_c (fun i => decide (1 ≤ i))
        [⟨some "http://a.com", none⟩, ⟨some "http://b.com", none⟩]
      = process_html ([⟨some "http://a.com", none⟩, ⟨some "http://b.com", none⟩].take 1)) ∧
    ∃ s r, process_excel_c (fun i => decide (1 ≤ i)) [[[.vstr "http://a.com"]]]
      = process_excel (excelSlice [[[.vstr "http://a.com"]]] s r) := by
  obtain ⟨h1, h2, h3, h4⟩ :=
    C9_cancellation (fun i => decide (1 ≤ i)) 1 (fun i => by simp)
  exact ⟨h1 _, h2 _, h3 _, h4 _⟩

/-- C10: `process_html` never reports 1.0 — each reported fraction is
`i/total` for a loop index `i < total` and there is no final completion
call — while `process_csv`, `process_excel` and `process_text` all end with
an unconditional `1.0`. -/
theorem C10_html_progress :
    (∀ (total : Nat) (q : ℚ), q ∈ html_progress total →
      ∃ i, i < total ∧ q = (i : ℚ) / total) ∧
    (∀ (total : Nat) (q : ℚ), q ∈ html_progress total → q ≠ 1) ∧
    (∀ total, (csv_progress total).getLast? = some 1) ∧
    (∀ total, (excel_progress total).getLast? = some 1) ∧
    (∀ total, (text_progress total).getLast? = some 1) := by
  have hmem : ∀ (total : Nat) (q : ℚ), q ∈ html_progress total →
      ∃ i, i < total ∧ q = (i : ℚ) / total := by
    intro total q hq
    simp only [html_progress, List.mem_filterMap, List.mem_range] at hq
    obtain ⟨i, hi, hsome⟩ := hq
    by_cases h : i % get_progress_interval total = 0
    · rw [if_pos h] at hsome
      exact ⟨i, hi, (Option.some_injective _ hsome).symm⟩
    · rw [if_neg h] at hsome
      cases hsome
  refine ⟨hmem, ?_, ?_, ?_, ?_⟩
  · intro total q hq h1
    obtain ⟨i, hi, rfl⟩ := hmem total q hq
    have h0 : (total : ℚ) ≠ 0 := Nat.cast_ne_zero.mpr (by omega)
    have h2 : (i : ℚ) = 1 * total := (div_eq_iff h0).mp h1
    rw [one_mul] at h2
    have : i = total := by exact_mod_cast h2
    omega
  · intro total
    unfold csv_progress
    exact List.getLast?_concat _
  · intro total
    unfold excel_progress
    exact List.getLast?_concat _
  · intro total
    unfold text_progress
    have hsplit : ∀ l : List ℚ, l ++ [1, 1] = (l ++ [1]) ++ [1] := by
      intro l
      rw [List.append_assoc]
      rfl
    rw [hsplit]
    exact List.getLast?_concat _

/-- C10 witness: the theorem applied at the concrete total `7` and the
emitted fraction `0`. -/
theorem C10_html_progress_witness :
    (∃ i : ℕ, i < 7 ∧ (0 : ℚ) = (i : ℚ) / ((7 : ℕ) : ℚ)) ∧ (0 : ℚ) ≠ 1 ∧
    (csv_progress 7).getLast? = some 1 ∧ (excel_progress 7).getLast? = some 1 ∧
    (text_progress 7).getLast? = some 1 := by
  obtain ⟨h1, h2, h3, h4, h5⟩ := C10_html_progress
  have hm : (0 : ℚ) ∈ html_progress 7 := by
    norm_num [html_progress, List.range_succ, get_progress_interval, List.filterMap_cons]
  exact ⟨h1 7 0 hm, h2 7 0 hm, h3 7, h4 7, h5 7⟩
